import Mathlib

/-!
Verification of the portainer-xtc reconciler (`main.go`) against its
natural-language specification.

The Go program is shallowly embedded: each Go function becomes a pure Lean
function; the external world (filesystem and Portainer HTTP API) is passed in
as an explicit `World` of response oracles, and every externally visible
request the code issues is recorded in an `Effect` trace, in program order.
Go strings are modelled as Lean `String`s (byte sequences); Go `int` as `Int`;
Go maps as association lists queried with `List.lookup` (an assignment conses
a new binding in front, which has the same lookup semantics as a Go map
store).
-/

namespace PortainerXtc

/-! ### Decimal rendering, modelling Go fmt's `%d` verb

`fmt.Sprintf("%d", n)` renders an integer in decimal, with a leading `-` for
negatives.  `natRepr` is the standard decimal rendering of a `Nat`, written
with explicit fuel (the number itself plus one bounds the digit count) so
that it is structurally recursive and evaluates by `decide`/`rfl`. -/

def digitChar (d : Nat) : Char := Char.ofNat (48 + d)

/-- Fuel-indexed digit accumulator: prepends the decimal digits of `n`
(most significant first) to `acc`. -/
def natReprCore : Nat → Nat → List Char → List Char
  | 0, _, acc => acc
  | fuel + 1, n, acc =>
    if n < 10 then digitChar (n % 10) :: acc
    else natReprCore fuel (n / 10) (digitChar (n % 10) :: acc)

/-- Decimal rendering of a natural number, e.g. `natRepr 30 = "30"`. -/
def natRepr (n : Nat) : String := ⟨natReprCore (n + 1) n []⟩

/-- Decimal rendering of a Go `int`: `-` prefix for negatives, as `%d` does. -/
def intRepr : Int → String
  | .ofNat m => natRepr m
  | .negSucc m => "-" ++ natRepr (m + 1)

/-! ### Data model (`main.go` type declarations) -/

/-- `type Stack struct { ID int; Name string; Status int; EndpointId int }` -/
structure Stack where
  ID : Int
  Name : String
  Status : Int
  EndpointId : Int
deriving DecidableEq, Repr

/-- `type Endpoint struct { ID int; Name string }` -/
structure Endpoint where
  ID : Int
  Name : String
deriving DecidableEq, Repr

/-- `type Config struct` — all configuration for the application. -/
structure Config where
  PortainerAddress : String
  APIKey : String
  StackFilesDir : String
  WatchStackdsDir : Bool
deriving DecidableEq, Repr

/-- `func (c *Config) EndpointsURL() string` -/
def Config.EndpointsURL (c : Config) : String :=
  c.PortainerAddress ++ "/api/" ++ "endpoints"

/-- `func (c *Config) StacksURL() string` -/
def Config.StacksURL (c : Config) : String :=
  c.PortainerAddress ++ "/api/" ++ "stacks"

/-- `type CreateStackRequest struct { Name, StackFileContent string }`; also
the decode target of `GET /api/stacks/{id}/file`. -/
structure CreateStackRequest where
  Name : String
  StackFileContent : String
deriving DecidableEq, Repr

/-- `type BodyComposeUpdate struct { StackFileContent string; PullImage bool }` -/
structure BodyComposeUpdate where
  StackFileContent : String
  PullImage : Bool
deriving DecidableEq, Repr

/-- The Go zero value `Stack{}`. -/
def Stack.zero : Stack := ⟨0, "", 0, 0⟩

/-- The shared inventory `map[string]Stack`, as an association list; a Go map
store `m[k] = v` is modelled by consing `(k, v)`, which `List.lookup` sees
exactly as the updated map. -/
abbrev SMap := List (String × Stack)

/-- The endpoints-by-name table `map[string]Endpoint`. -/
abbrev EMap := List (String × Endpoint)

/-! ### Effects and the external world -/

/-- One externally visible action of the program, in program order. -/
inductive Effect where
  | readFile (path : String)
  | httpGet (url : String)
  | httpPut (url : String) (body : BodyComposeUpdate)
  | httpPost (url : String) (body : CreateStackRequest)
  | readDir (path : String)
deriving DecidableEq, Repr

def Effect.isPut : Effect → Bool
  | .httpPut _ _ => true
  | _ => false

def Effect.isPost : Effect → Bool
  | .httpPost _ _ => true
  | _ => false

/-- Oracles for every external interaction.  `doRequest` attaches the
`X-API-Key` header and either decodes the response body (GET) or discards it
(PUT/POST); transport and decode failures are both `Except.error`. -/
structure World where
  fs : String → Except String String
  httpGet : String → Except String CreateStackRequest
  httpPut : String → BodyComposeUpdate → Except String Unit
  httpPost : String → CreateStackRequest → Except String Unit
  endpointsList : String → Except String (List Endpoint)
  stacksList : String → Except String (List Stack)
  readDir : String → Except String (List String)

/-! ### Identity resolver -/

/-- The composite key `fmt.Sprintf("%d-%s", targetId, stackName)`, computed
both at `manageStack`'s existence test and in `idFromStack`. -/
def compositeKey (targetId : Int) (stackName : String) : String :=
  intRepr targetId ++ "-" ++ stackName

/-- `func idFromStack(s Stack) string { return fmt.Sprintf("%d-%s", s.EndpointId, s.Name) }` -/
def idFromStack (s : Stack) : String :=
  compositeKey s.EndpointId s.Name

/-! ### Reconciler (`updateStack`, `createStack`, `manageStack`) -/

/-- The file path `fmt.Sprintf("./stacks/%s/%s/docker-compose.yml", node, stack)`
hard-coded in both `updateStack` and `createStack` (note: not
`config.StackFilesDir`). -/
def stackFilePath (node stack : String) : String :=
  "./stacks/" ++ node ++ "/" ++ stack ++ "/docker-compose.yml"

/-- `func updateStack(config, node, stack, endpoint, sMap, c) error`: read the
local file, fetch the remote stack file content, skip when identical,
otherwise PUT the local content with `pullImage: true`.  Returns the effect
trace and the Go error result.  The GET/PUT base URL is the hard-coded
literal `http://portainer.b.brain` from the source. -/
def updateStack (_config : Config) (node stack : String) (endpoint : Endpoint)
    (sMap : SMap) (w : World) : List Effect × Except String Unit :=
  let path := stackFilePath node stack
  match w.fs path with
  | .error e => ([.readFile path],
      .error ("failed to read file '" ++ path ++ "': " ++ e))
  | .ok sf =>
    match sMap.lookup (compositeKey endpoint.ID stack) with
    | none => ([.readFile path],
        .error ("stack " ++ stack ++ " not found on node " ++ node))
    | some s =>
      let getURL := "http://portainer.b.brain/api/stacks/" ++ intRepr s.ID ++ "/file"
      match w.httpGet getURL with
      | .error e => ([.readFile path, .httpGet getURL],
          .error ("failed to create stack: " ++ e))
      | .ok sfc =>
        if sfc.StackFileContent = sf then
          ([.readFile path, .httpGet getURL], .ok ())
        else
          let body : BodyComposeUpdate := ⟨sf, true⟩
          let putURL := "http://portainer.b.brain/api/stacks/" ++ intRepr s.ID
            ++ "?endpointId=" ++ intRepr endpoint.ID
          ([.readFile path, .httpGet getURL, .httpPut putURL body],
            match w.httpPut putURL body with
            | .error e => .error ("failed to create stack: " ++ e)
            | .ok _ => .ok ())

/-- `func createStack(config, node, stack, endpoint, c) error`: read the local
file and POST a `CreateStackRequest` (`json.Marshal` of this struct cannot
fail, so it is pure here).  The POST base URL is the hard-coded literal
`http://portainer.b.brain` from the source. -/
def createStack (_config : Config) (node stack : String) (endpoint : Endpoint)
    (w : World) : List Effect × Except String Unit :=
  let path := stackFilePath node stack
  match w.fs path with
  | .error e => ([.readFile path],
      .error ("failed to read file '" ++ path ++ "': " ++ e))
  | .ok sf =>
    let req : CreateStackRequest := ⟨stack, sf⟩
    let postURL := "http://portainer.b.brain/api/stacks?type=2&method=string&endpointId="
      ++ intRepr endpoint.ID
    ([.readFile path, .httpPost postURL req],
      match w.httpPost postURL req with
      | .error e => .error ("failed to create stack: " ++ e)
      | .ok _ => .ok ())

/-- `func manageStack(config, node, stack, ers, sMap, c)`: the Reconciler.
Unknown node → silent skip.  Key present → update path (errors are logged and
swallowed; the inventory is untouched).  Key absent → create path, and
`sMap[stackID] = Stack{}` is executed after `createStack` returns, whether or
not it returned an error.  Returns the effect trace and the resulting
inventory. -/
def manageStack (config : Config) (node stack : String) (ers : EMap)
    (sMap : SMap) (w : World) : List Effect × SMap :=
  match ers.lookup node with
  | none => ([], sMap)
  | some v1 =>
    let stackID := compositeKey v1.ID stack
    match sMap.lookup stackID with
    | some _ => ((updateStack config node stack v1 sMap w).1, sMap)
    | none => ((createStack config node stack v1 w).1, (stackID, Stack.zero) :: sMap)

/-! ### The watch loop's path parsing (`Run`, watch-mode `for` loop)

`strings.Split(path, "/")` for the one-character separator `/` cuts the byte
sequence at every `/` and keeps empty fields, including a leading empty field
for an absolute path; `splitOnChar` below is that function on the character
list of the path. -/

def splitOnAux (sep : Char) : List Char → List Char → List (List Char)
  | [], acc => [acc.reverse]
  | c :: cs, acc =>
    if c = sep then acc.reverse :: splitOnAux sep cs []
    else splitOnAux sep cs (c :: acc)

/-- Go `strings.Split(s, string(sep))` on the character list of `s`. -/
def splitOnChar (sep : Char) (s : List Char) : List (List Char) :=
  splitOnAux sep s []

/-- The body of the watch loop for one event path (`Run`, watch mode): split
the path on `/`; fewer than three segments → skip (`none`); otherwise reslice
to the final three segments and take `pathSplit[0]` and `pathSplit[1]` as
(node, stack). -/
def watchEvent (path : String) : Option (String × String) :=
  let pathSplit := splitOnChar '/' path.data
  if pathSplit.length < 3 then none
  else
    match pathSplit.drop (pathSplit.length - 3) with
    | n :: s :: _ => some (⟨n⟩, ⟨s⟩)
    | _ => none

/-- One iteration of the watch loop: parse the event path and, when it names a
(node, stack) pair, invoke `manageStack` on the shared inventory; a skipped
event performs nothing and leaves the inventory untouched. -/
def watchStep (config : Config) (ers : EMap) (sMap : SMap) (w : World)
    (path : String) : List Effect × SMap :=
  match watchEvent path with
  | none => ([], sMap)
  | some (node, stack) => manageStack config node stack ers sMap w

/-! ### Startup (`Run`, lines up to the initial fan-out) -/

/-- `map[string]Endpoint` built from the endpoints list (`Run`): later
entries win, exactly as repeated Go map stores do. -/
def buildEndpointsByName : List Endpoint → EMap
  | [] => []
  | e :: es => buildEndpointsByName es ++ [(e.Name, e)]

/-- `map[string]Stack` keyed by `idFromStack` built from the stacks list
(`Run`): later entries win. -/
def buildStacksById : List Stack → SMap
  | [] => []
  | s :: ss => buildStacksById ss ++ [(idFromStack s, s)]

/-- The outcome of `Run`'s startup section: either a returned error, or the
tables and node listing handed to `traverseNodes` (whose concurrent fan-out,
and the subsequent watch loop, are modelled per-pair by `manageStack` and
`watchStep`). -/
structure StartupOutcome where
  effects : List Effect
  result : Except String (EMap × SMap × List String)

/-- `func Run() error`, from the flag validation through the two inventory
fetches and the root directory listing (the prefix feeding `traverseNodes`).
Returns every effect issued, in order, alongside the result. -/
def runStartup (config : Config) (w : World) : StartupOutcome :=
  if config.PortainerAddress = "" then
    ⟨[], .error "portainer-address must be set"⟩
  else if config.APIKey = "" then
    ⟨[], .error "api-key must be set"⟩
  else
    match w.endpointsList config.EndpointsURL with
    | .error e => ⟨[.httpGet config.EndpointsURL],
        .error ("failed to create stack: " ++ e)⟩
    | .ok endpoints =>
      let endpointsByName := buildEndpointsByName endpoints
      match w.stacksList config.StacksURL with
      | .error e => ⟨[.httpGet config.EndpointsURL, .httpGet config.StacksURL],
          .error ("failed to list stacks: " ++ e)⟩
      | .ok stackListResp =>
        let stacksById := buildStacksById stackListResp
        match w.readDir config.StackFilesDir with
        | .error e => ⟨[.httpGet config.EndpointsURL, .httpGet config.StacksURL,
            .readDir config.StackFilesDir],
            .error ("failed to read directory '" ++ config.StackFilesDir ++ "': " ++ e)⟩
        | .ok nodes => ⟨[.httpGet config.EndpointsURL, .httpGet config.StacksURL,
            .readDir config.StackFilesDir],
            .ok (endpointsByName, stacksById, nodes)⟩

/-- Value of a most-significant-first decimal digit string (used to invert
`natRepr`). -/
def digitsVal : List Char → Nat
  | [] => 0
  | c :: cs => (c.toNat - 48) * 10 ^ cs.length + digitsVal cs

/-! ### Concrete fixtures used by witnesses and counterexamples -/

def cfg0 : Config := ⟨"http://example.com", "secret", "./stacks/", false⟩

def cfgData : Config := ⟨"http://example.com", "secret", "/data/", false⟩

def ers0 : EMap := [("web", ⟨3, "web"⟩)]

def sMap0 : SMap := [("3-app", ⟨9, "app", 1, 3⟩)]

/-- A world whose remote file content matches the local file. -/
def wSame : World :=
  ⟨fun _ => .ok "services:", fun _ => .ok ⟨"", "services:"⟩,
   fun _ _ => .ok (), fun _ _ => .ok (),
   fun _ => .ok [⟨3, "web"⟩], fun _ => .ok [⟨9, "app", 1, 3⟩],
   fun _ => .ok ["web"]⟩

/-- A world whose remote file content differs from the local file. -/
def wDiff : World :=
  ⟨fun _ => .ok "new", fun _ => .ok ⟨"", "old"⟩,
   fun _ _ => .ok (), fun _ _ => .ok (),
   fun _ => .ok [], fun _ => .ok [], fun _ => .ok []⟩

/-- A world where every external interaction fails. -/
def wFail : World :=
  ⟨fun _ => .error "no such file", fun _ => .error "down",
   fun _ _ => .error "down", fun _ _ => .error "down",
   fun _ => .error "down", fun _ => .error "down", fun _ => .error "down"⟩

/-! ### Correctness of the decimal rendering -/

theorem digitChar_toNat {d : Nat} (h : d < 10) : (digitChar d).toNat = 48 + d := by
  unfold digitChar
  interval_cases d <;> decide

theorem natReprCore_step (fuel n : Nat) (acc : List Char) (h : ¬ n < 10) :
    natReprCore (fuel + 1) n acc
      = natReprCore fuel (n / 10) (digitChar (n % 10) :: acc) := by
  simp [natReprCore, h]

theorem natReprCore_append : ∀ (fuel n : Nat) (a b : List Char),
    natReprCore fuel n (a ++ b) = natReprCore fuel n a ++ b := by
  intro fuel
  induction fuel with
  | zero => intro n a b; simp [natReprCore]
  | succ fuel ih =>
    intro n a b
    by_cases h10 : n < 10
    · simp [natReprCore, h10]
    · simp only [natReprCore, h10, if_false]
      have := ih (n / 10) (digitChar (n % 10) :: a) b
      simpa using this

theorem digitsVal_natReprCore : ∀ (fuel n : Nat) (acc : List Char),
    n < 10 ^ fuel →
    digitsVal (natReprCore fuel n acc) = n * 10 ^ acc.length + digitsVal acc := by
  intro fuel
  induction fuel with
  | zero =>
    intro n acc h
    simp only [pow_zero, Nat.lt_one_iff] at h
    simp [natReprCore, h]
  | succ fuel ih =>
    intro n acc h
    by_cases h10 : n < 10
    · simp only [natReprCore, h10, if_true, digitsVal]
      rw [digitChar_toNat (Nat.mod_lt _ (by norm_num))]
      have hn : 48 + n % 10 - 48 = n := by omega
      rw [hn]
    · simp only [natReprCore, h10, if_false]
      have hdiv : n / 10 < 10 ^ fuel := by
        rw [Nat.div_lt_iff_lt_mul (by norm_num : 0 < 10)]
        calc n < 10 ^ (fuel + 1) := h
          _ = 10 ^ fuel * 10 := by rw [pow_succ]
      rw [ih (n / 10) (digitChar (n % 10) :: acc) hdiv]
      simp only [digitsVal, List.length_cons]
      rw [digitChar_toNat (Nat.mod_lt _ (by norm_num))]
      have hm : 48 + n % 10 - 48 = n % 10 := by omega
      rw [hm, pow_succ]
      conv_rhs => rw [← Nat.div_add_mod n 10]
      ring

theorem digitsVal_natRepr (n : Nat) : digitsVal (natRepr n).data = n := by
  have hn : n < 10 ^ (n + 1) :=
    lt_of_lt_of_le (Nat.lt_pow_self (by norm_num) n)
      (Nat.pow_le_pow_right (by norm_num) (Nat.le_succ n))
  have := digitsVal_natReprCore (n + 1) n [] hn
  simpa [natRepr, digitsVal] using this

theorem natRepr_injective : Function.Injective natRepr := by
  intro a b h
  have := congrArg (fun s => digitsVal s.data) h
  simpa [digitsVal_natRepr] using this

theorem natReprCore_head : ∀ (fuel n : Nat),
    ∃ d rest, d < 10 ∧ natReprCore (fuel + 1) n [] = digitChar d :: rest := by
  intro fuel
  induction fuel with
  | zero =>
    intro n
    by_cases h10 : n < 10
    · exact ⟨n % 10, [], Nat.mod_lt _ (by norm_num), by simp [natReprCore, h10]⟩
    · exact ⟨n % 10, [], Nat.mod_lt _ (by norm_num), by simp [natReprCore, h10]⟩
  | succ fuel ih =>
    intro n
    by_cases h10 : n < 10
    · exact ⟨n % 10, [], Nat.mod_lt _ (by norm_num), by simp [natReprCore, h10]⟩
    · obtain ⟨d, rest, hd, hcore⟩ := ih (n / 10)
      refine ⟨d, rest ++ [digitChar (n % 10)], hd, ?_⟩
      have happ := natReprCore_append (fuel + 1) (n / 10) [] [digitChar (n % 10)]
      simp only [List.nil_append] at happ
      rw [natReprCore_step (fuel + 1) n [] h10, happ, hcore]
      simp

theorem natRepr_head (n : Nat) :
    ∃ d rest, d < 10 ∧ (natRepr n).data = digitChar d :: rest :=
  natReprCore_head n n

theorem natRepr_ne_neg (m k : Nat) : natRepr m ≠ "-" ++ natRepr k := by
  intro h
  have hdata := congrArg String.data h
  rw [String.data_append] at hdata
  obtain ⟨d, rest, hd, hhead⟩ := natRepr_head m
  rw [hhead] at hdata
  have hchar : digitChar d = '-' := by
    have : "-".data = ['-'] := rfl
    rw [this] at hdata
    exact List.head_eq_of_cons_eq hdata
  have := congrArg Char.toNat hchar
  rw [digitChar_toNat hd] at this
  simp at this
  omega

theorem intRepr_injective : Function.Injective intRepr := by
  intro a b h
  match a, b with
  | .ofNat m, .ofNat k =>
    have := natRepr_injective h
    rw [this]
  | .ofNat m, .negSucc k => exact absurd h (natRepr_ne_neg m (k + 1))
  | .negSucc m, .ofNat k => exact absurd h.symm (natRepr_ne_neg k (m + 1))
  | .negSucc m, .negSucc k =>
    simp only [intRepr] at h
    have hdata := congrArg String.data h
    rw [String.data_append, String.data_append] at hdata
    have : (natRepr (m + 1)).data = (natRepr (k + 1)).data :=
      List.append_cancel_left hdata
    have := natRepr_injective (String.ext this)
    simp only [Nat.add_right_cancel_iff] at this
    rw [this]

theorem compositeKey_injective_left {id1 id2 : Int} (name : String)
    (h : compositeKey id1 name = compositeKey id2 name) : id1 = id2 := by
  unfold compositeKey at h
  have hdata := congrArg String.data h
  simp only [String.data_append] at hdata
  have h1 := List.append_cancel_right hdata
  have h2 := List.append_cancel_right h1
  exact intRepr_injective (String.ext h2)

/-! ### Splitting lemmas for the watch loop -/

theorem splitOnAux_sep : ∀ (sep : Char) (xs ys acc : List Char),
    splitOnAux sep (xs ++ sep :: ys) acc
      = splitOnAux sep xs acc ++ splitOnChar sep ys := by
  intro sep xs
  induction xs with
  | nil =>
    intro ys acc
    simp [splitOnAux, splitOnChar]
  | cons c cs ih =>
    intro ys acc
    by_cases hc : c = sep
    · simp [splitOnAux, hc, ih]
    · simp [splitOnAux, hc, ih]

theorem splitOnChar_sep (sep : Char) (xs ys : List Char) :
    splitOnChar sep (xs ++ sep :: ys)
      = splitOnChar sep xs ++ splitOnChar sep ys :=
  splitOnAux_sep sep xs ys []

theorem splitOnAux_no_sep : ∀ (sep : Char) (xs acc : List Char),
    (∀ c ∈ xs, c ≠ sep) → splitOnAux sep xs acc = [acc.reverse ++ xs] := by
  intro sep xs
  induction xs with
  | nil => intro acc _; simp [splitOnAux]
  | cons c cs ih =>
    intro acc h
    have hc : c ≠ sep := h c (List.mem_cons_self c cs)
    have hcs : ∀ x ∈ cs, x ≠ sep := fun x hx => h x (List.mem_cons_of_mem c hx)
    simp [splitOnAux, hc, ih (c :: acc) hcs]

theorem splitOnChar_no_sep (sep : Char) (xs : List Char)
    (h : ∀ c ∈ xs, c ≠ sep) : splitOnChar sep xs = [xs] := by
  simpa using splitOnAux_no_sep sep xs [] h

/-! ### Claim theorems -/

/-- C6: `compositeKey` is the pure deterministic total function rendering the
integer target id in decimal, then a hyphen, then the stack name; for every
stack name two distinct target ids give distinct keys; and the key the
Reconciler computes in `manageStack` agrees with `idFromStack`, the key used
when building the inventory from the remote stack list. -/
theorem composite_key_correct :
    (∀ (targetId : Int) (name : String),
        compositeKey targetId name = intRepr targetId ++ "-" ++ name) ∧
    (∀ (name : String) (id1 id2 : Int),
        id1 ≠ id2 → compositeKey id1 name ≠ compositeKey id2 name) ∧
    (∀ (v1 : Endpoint) (s : Stack) (stack : String),
        v1.ID = s.EndpointId → stack = s.Name →
        compositeKey v1.ID stack = idFromStack s) := by
  refine ⟨fun _ _ => rfl, ?_, ?_⟩
  · intro name id1 id2 hne heq
    exact hne (compositeKey_injective_left name heq)
  · intro v1 s stack h1 h2
    rw [h1, h2]
    rfl

theorem composite_key_correct_witness :
    compositeKey 1 "app" ≠ compositeKey 2 "app" :=
  composite_key_correct.2.1 "app" 1 2 (by decide)

/-- C5: a (node, stack) pair whose node name has no entry in the
targets-by-name table is silently skipped: `manageStack` performs zero
effects (no remote call, no file read) and leaves the inventory unchanged;
no error is surfaced. -/
theorem unknown_node_skipped (config : Config) (node stack : String)
    (ers : EMap) (sMap : SMap) (w : World)
    (h : ers.lookup node = none) :
    manageStack config node stack ers sMap w = ([], sMap) := by
  simp [manageStack, h]

theorem unknown_node_skipped_witness :
    manageStack cfg0 "ghost" "app" ers0 sMap0 wSame = ([], sMap0) :=
  unknown_node_skipped cfg0 "ghost" "app" ers0 sMap0 wSame (by decide)

/-- C2 counterexample: with a filesystem on which every read fails, the
create path's `createStack` returns an error, and yet `manageStack` inserts
the zero-value placeholder under the composite key `"3-app2"` — the claim
that a failed create leaves the Shared Inventory unchanged is false. -/
theorem create_failure_placeholder_cex :
    (createStack cfg0 "web" "app2" ⟨3, "web"⟩ wFail).2
        = .error "failed to read file './stacks/web/app2/docker-compose.yml': no such file"
      ∧ ((manageStack cfg0 "web" "app2" ers0 [] wFail).2).lookup "3-app2"
        = some Stack.zero :=
  ⟨rfl, rfl⟩

/-- C2 amended: on the create path (key absent, node known), `manageStack`
inserts the zero-value placeholder under the composite key after the create
attempt regardless of whether the POST succeeded — even for a (node, stack)
pair whose create fails, the key is present afterward. -/
theorem placeholder_inserted_after_create (config : Config)
    (node stack : String) (ers : EMap) (sMap : SMap) (w : World)
    (v1 : Endpoint)
    (hlk : ers.lookup node = some v1)
    (habs : sMap.lookup (compositeKey v1.ID stack) = none) :
    (manageStack config node stack ers sMap w).2
      = (compositeKey v1.ID stack, Stack.zero) :: sMap := by
  simp [manageStack, hlk, habs]

theorem placeholder_inserted_after_create_witness :
    (manageStack cfg0 "web" "app2" ers0 [] wFail).2
      = (compositeKey 3 "app2", Stack.zero) :: [] :=
  placeholder_inserted_after_create cfg0 "web" "app2" ers0 [] wFail
    ⟨3, "web"⟩ (by decide) (by decide)

/-- C10: every reconciliation preserves existing inventory entries — the
result of `manageStack` is either the unchanged inventory (skip and update
paths) or the inventory extended at a key that was previously absent (create
path); in particular every key previously mapped to a value still maps to
that same value, so an entry, once present, is never changed or removed. -/
theorem inventory_preservation (config : Config) (node stack : String)
    (ers : EMap) (sMap : SMap) (w : World) :
    (∀ k v, sMap.lookup k = some v →
        ((manageStack config node stack ers sMap w).2).lookup k = some v) ∧
    ((manageStack config node stack ers sMap w).2 = sMap ∨
      ∃ key, sMap.lookup key = none ∧
        (manageStack config node stack ers sMap w).2
          = (key, Stack.zero) :: sMap) := by
  cases hlk : ers.lookup node with
  | none =>
    simp only [manageStack, hlk]
    exact ⟨fun k v hkv => hkv, Or.inl trivial⟩
  | some v1 =>
    cases hsk : sMap.lookup (compositeKey v1.ID stack) with
    | some s =>
      simp only [manageStack, hlk, hsk]
      exact ⟨fun k v hkv => hkv, Or.inl trivial⟩
    | none =>
      simp only [manageStack, hlk, hsk]
      refine ⟨?_, Or.inr ⟨compositeKey v1.ID stack, hsk, rfl⟩⟩
      intro k v hkv
      have hne : (k == compositeKey v1.ID stack) = false := by
        apply beq_eq_false_iff_ne.mpr
        intro h
        rw [h, hsk] at hkv
        exact Option.noConfusion hkv
      simp [List.lookup, hne, hkv]

theorem inventory_preservation_witness :
    ((manageStack cfg0 "web" "app2" ers0 sMap0 wFail).2).lookup "3-app"
      = some ⟨9, "app", 1, 3⟩ :=
  (inventory_preservation cfg0 "web" "app2" ers0 sMap0 wFail).1
    "3-app" ⟨9, "app", 1, 3⟩ (by decide)

/-- C1: on the update path (node known, key present in the inventory, local
file read and remote content fetched), the remote content is compared
byte-for-byte with the local file: when identical, no PUT is issued and
`updateStack` returns no error; when they differ at all, exactly one PUT is
issued, whose body carries the local content with `pullImage = true`. -/
theorem update_content_diff (config : Config) (node stack : String)
    (endpoint : Endpoint) (sMap : SMap) (w : World) (sf : String) (s : Stack)
    (sfc : CreateStackRequest)
    (hfs : w.fs (stackFilePath node stack) = .ok sf)
    (hlk : sMap.lookup (compositeKey endpoint.ID stack) = some s)
    (hget : w.httpGet ("http://portainer.b.brain/api/stacks/"
        ++ intRepr s.ID ++ "/file") = .ok sfc) :
    (sfc.StackFileContent = sf →
      (updateStack config node stack endpoint sMap w).1.filter Effect.isPut = []
        ∧ (updateStack config node stack endpoint sMap w).2 = .ok ()) ∧
    (sfc.StackFileContent ≠ sf →
      (updateStack config node stack endpoint sMap w).1.filter Effect.isPut
        = [.httpPut ("http://portainer.b.brain/api/stacks/" ++ intRepr s.ID
            ++ "?endpointId=" ++ intRepr endpoint.ID) ⟨sf, true⟩]) := by
  constructor
  · intro heq
    constructor
    · simp [updateStack, hfs, hlk, hget, heq, Effect.isPut]
    · simp [updateStack, hfs, hlk, hget, heq]
  · intro hne
    simp [updateStack, hfs, hlk, hget, hne, Effect.isPut]

theorem update_content_diff_witness :
    (updateStack cfg0 "web" "app" ⟨3, "web"⟩ sMap0 wDiff).1.filter Effect.isPut
      = [.httpPut ("http://portainer.b.brain/api/stacks/" ++ intRepr (9 : Int)
          ++ "?endpointId=" ++ intRepr (3 : Int)) ⟨"new", true⟩] :=
  (update_content_diff cfg0 "web" "app" ⟨3, "web"⟩ sMap0 wDiff "new"
      ⟨9, "app", 1, 3⟩ ⟨"", "old"⟩ rfl (by decide) rfl).2 (by decide)

/-- C3: the claim fails on the code — evaluated at a configuration whose base
address is `http://example.com`, the update path's content GET and PUT and
the create path's POST all address the hard-coded literal base
`http://portainer.b.brain` instead of the configured base address. -/
theorem mutation_urls_hardcoded_cex :
    (updateStack cfg0 "web" "app" ⟨3, "web"⟩ sMap0 wDiff).1
      = [.readFile "./stacks/web/app/docker-compose.yml",
         .httpGet "http://portainer.b.brain/api/stacks/9/file",
         .httpPut "http://portainer.b.brain/api/stacks/9?endpointId=3"
           ⟨"new", true⟩]
    ∧ (createStack cfg0 "web" "app" ⟨3, "web"⟩ wDiff).1
      = [.readFile "./stacks/web/app/docker-compose.yml",
         .httpPost
           "http://portainer.b.brain/api/stacks?type=2&method=string&endpointId=3"
           ⟨"app", "new"⟩]
    ∧ cfg0.PortainerAddress = "http://example.com"
    ∧ "http://portainer.b.brain/api/stacks/9/file"
        ≠ cfg0.PortainerAddress ++ "/api/stacks/9/file" :=
  ⟨by decide, by decide, rfl, by decide⟩

/-- C4: the claim fails on the code — with the root directory configured as
`/data/`, both reconciliation paths still read the local definition file from
the hard-coded `./stacks/{node}/{stack}/docker-compose.yml`, not from the
configured root. -/
theorem local_file_path_hardcoded_cex :
    (updateStack cfgData "web" "app" ⟨3, "web"⟩ sMap0 wDiff).1.head?
      = some (.readFile "./stacks/web/app/docker-compose.yml")
    ∧ (createStack cfgData "web" "app" ⟨3, "web"⟩ wDiff).1.head?
      = some (.readFile "./stacks/web/app/docker-compose.yml")
    ∧ cfgData.StackFilesDir = "/data/"
    ∧ "./stacks/web/app/docker-compose.yml"
        ≠ cfgData.StackFilesDir ++ "web" ++ "/" ++ "app" ++ "/"
            ++ "docker-compose.yml" :=
  ⟨by decide, by decide, rfl, by decide⟩

/-- C9: after the create path inserts its placeholder for a (node, stack)
pair, a later reconciliation of the same pair in the same run takes the
update path with the placeholder's zero-value record: its content GET and
its PUT address remote unit id `0` (the placeholder's `ID` field), not the
id of the unit the earlier POST actually created. -/
theorem placeholder_zero_id_reused (config : Config) (node stack : String)
    (ers : EMap) (sMap : SMap) (w1 w2 : World) (v1 : Endpoint) (sf : String)
    (sfc : CreateStackRequest)
    (hlk : ers.lookup node = some v1)
    (habs : sMap.lookup (compositeKey v1.ID stack) = none)
    (hfs : w2.fs (stackFilePath node stack) = .ok sf)
    (hget : w2.httpGet ("http://portainer.b.brain/api/stacks/"
        ++ intRepr Stack.zero.ID ++ "/file") = .ok sfc)
    (hne : sfc.StackFileContent ≠ sf) :
    manageStack config node stack ers
        ((manageStack config node stack ers sMap w1).2) w2
      = ([.readFile (stackFilePath node stack),
          .httpGet ("http://portainer.b.brain/api/stacks/"
            ++ intRepr Stack.zero.ID ++ "/file"),
          .httpPut ("http://portainer.b.brain/api/stacks/"
            ++ intRepr Stack.zero.ID ++ "?endpointId=" ++ intRepr v1.ID)
            ⟨sf, true⟩],
         (manageStack config node stack ers sMap w1).2) := by
  have h1 : (manageStack config node stack ers sMap w1).2
      = (compositeKey v1.ID stack, Stack.zero) :: sMap := by
    simp [manageStack, hlk, habs]
  rw [h1]
  have hlk2 : ((compositeKey v1.ID stack, Stack.zero) :: sMap).lookup
      (compositeKey v1.ID stack) = some Stack.zero := by
    simp [List.lookup]
  simp [manageStack, hlk, hlk2, updateStack, hfs, hget, hne]

theorem placeholder_zero_id_reused_witness :
    manageStack cfg0 "web" "app2" ers0
        ((manageStack cfg0 "web" "app2" ers0 [] wSame).2) wDiff
      = ([.readFile (stackFilePath "web" "app2"),
          .httpGet ("http://portainer.b.brain/api/stacks/"
            ++ intRepr Stack.zero.ID ++ "/file"),
          .httpPut ("http://portainer.b.brain/api/stacks/"
            ++ intRepr Stack.zero.ID ++ "?endpointId=" ++ intRepr (3 : Int))
            ⟨"new", true⟩],
         (manageStack cfg0 "web" "app2" ers0 [] wSame).2) :=
  placeholder_zero_id_reused cfg0 "web" "app2" ers0 [] wSame wDiff
    ⟨3, "web"⟩ "new" ⟨"", "old"⟩ (by decide) rfl rfl rfl (by decide)

/-- C7: watch-loop path parsing: an event path that splits on `/` into fewer
than three segments is discarded — no reconciliation is invoked and the
inventory is untouched; a path of the shape `…/node/stack/file` whose final
three segments are slash-free yields exactly that (node, stack) pair. -/
theorem watch_path_parsing (config : Config) (ers : EMap) (sMap : SMap)
    (w : World) :
    (∀ path : String, (splitOnChar '/' path.data).length < 3 →
        watchEvent path = none
          ∧ watchStep config ers sMap w path = ([], sMap)) ∧
    (∀ pre n s f : List Char,
        (∀ c ∈ n, c ≠ '/') → (∀ c ∈ s, c ≠ '/') → (∀ c ∈ f, c ≠ '/') →
        watchEvent ⟨pre ++ '/' :: (n ++ '/' :: (s ++ '/' :: f))⟩
          = some (⟨n⟩, ⟨s⟩)) := by
  constructor
  · intro path h
    have he : watchEvent path = none := by
      simp [watchEvent, h]
    exact ⟨he, by simp [watchStep, he]⟩
  · intro pre n s f hn hs hf
    have hsplit : splitOnChar '/' (pre ++ '/' :: (n ++ '/' :: (s ++ '/' :: f)))
        = splitOnChar '/' pre ++ [n, s, f] := by
      rw [splitOnChar_sep, splitOnChar_sep, splitOnChar_sep,
        splitOnChar_no_sep '/' n hn, splitOnChar_no_sep '/' s hs,
        splitOnChar_no_sep '/' f hf]
      simp
    have hdata : (String.mk (pre ++ '/' :: (n ++ '/' :: (s ++ '/' :: f)))).data
        = pre ++ '/' :: (n ++ '/' :: (s ++ '/' :: f)) := rfl
    have hlen : (splitOnChar '/' pre ++ [n, s, f]).length
        = (splitOnChar '/' pre).length + 3 := by simp
    simp only [watchEvent, hdata, hsplit, hlen]
    rw [if_neg (by omega), Nat.add_sub_cancel, List.drop_left]

theorem watch_path_parsing_witness :
    watchEvent "ab" = none
      ∧ watchEvent ⟨[] ++ '/' :: ("nodeA".data ++ '/'
            :: ("stackB".data ++ '/' :: "file.yml".data))⟩
          = some (⟨"nodeA".data⟩, ⟨"stackB".data⟩) :=
  ⟨((watch_path_parsing cfg0 ers0 sMap0 wSame).1 "ab" (by decide)).1,
   (watch_path_parsing cfg0 ers0 sMap0 wSame).2 [] "nodeA".data
     "stackB".data "file.yml".data (by decide) (by decide) (by decide)⟩

/-- C8: startup validation: with an empty remote base address or an empty
API key, `Run` fails with an error before any remote request or directory
read (the effect trace is empty); with both non-empty, startup proceeds to
the inventory fetches — the first effect is the endpoints GET against the
configured address. -/
theorem startup_validation (config : Config) (w : World) :
    (config.PortainerAddress = "" →
        runStartup config w
          = ⟨[], .error "portainer-address must be set"⟩) ∧
    (config.PortainerAddress ≠ "" → config.APIKey = "" →
        runStartup config w = ⟨[], .error "api-key must be set"⟩) ∧
    (config.PortainerAddress ≠ "" → config.APIKey ≠ "" →
        ∃ rest, (runStartup config w).effects
          = .httpGet config.EndpointsURL :: rest) := by
  refine ⟨?_, ?_, ?_⟩
  · intro h
    simp [runStartup, h]
  · intro h1 h2
    simp [runStartup, h1, h2]
  · intro h1 h2
    unfold runStartup
    rw [if_neg h1, if_neg h2]
    cases w.endpointsList config.EndpointsURL with
    | error e => exact ⟨[], rfl⟩
    | ok endpoints =>
      cases w.stacksList config.StacksURL with
      | error e => exact ⟨[.httpGet config.StacksURL], rfl⟩
      | ok ls =>
        cases w.readDir config.StackFilesDir with
        | error e =>
          exact ⟨[.httpGet config.StacksURL, .readDir config.StackFilesDir],
            rfl⟩
        | ok nodes =>
          exact ⟨[.httpGet config.StacksURL, .readDir config.StackFilesDir],
            rfl⟩

theorem startup_validation_witness :
    runStartup ⟨"", "secret", "./stacks/", false⟩ wSame
        = ⟨[], .error "portainer-address must be set"⟩
      ∧ ∃ rest, (runStartup cfg0 wSame).effects
          = .httpGet cfg0.EndpointsURL :: rest :=
  ⟨(startup_validation ⟨"", "secret", "./stacks/", false⟩ wSame).1 rfl,
   (startup_validation cfg0 wSame).2.2 (by decide) (by decide)⟩

end PortainerXtc
